import Mathlib

/-!
# sites-monitor: the polling loop of `src/index.js`

A shallow embedding of the program: configuration loading and validation
(lines 8-21), the status registry `sitesStatus` (line 24), `checkSite`
(lines 27-35), `sendSlackNotification` (lines 38-59) and `monitorSites`
(lines 62-99).

Modelling decisions.

* Everything the program reads from outside is an input: `process.env`, and for
  the iteration at position `i` of cycle `c` a `StepInput` holding the outcome of
  the probe `fetch`, the clock reading rendered by `toISOString()`, and the
  outcome of the webhook `fetch` (consulted only when a notification is sent).
* JavaScript exceptions are `Except JsError`; a `try`/`catch` is a `match` on the
  `Except` value of the guarded call.
* The program state is a `World`: the registry (a JavaScript `Map`, kept as an
  insertion-ordered association list), the console lines written so far, and a
  `trace` of what the loop did, in order: each value returned by `checkSite`,
  each webhook request issued by `sendSlackNotification`, each `sitesStatus.set`.
* `while (true)` never returns; `monitorSites cfg env n` is the state after `n`
  complete cycles (or the state at the point where an exception escaped).
* The pause between two cycles and the console line announcing it (it prints
  `checkInterval`, a floating-point number) are not modelled.
-/

namespace SitesMonitor

/-! ## JavaScript values used by the program -/

/-- An `Error` object; the program only reads `error.message`. -/
structure JsError where
  message : String
deriving DecidableEq

/-- The fields of a fetch `Response` the program reads. -/
structure Response where
  status : Nat
  ok : Bool
deriving DecidableEq

/-- Outcome of one awaited `fetch(...)` call: the promise either rejects
(transport error, timeout, malformed URL) or resolves with a response. -/
inductive FetchOutcome where
  | rejected (error : JsError)
  | resolved (response : Response)
deriving DecidableEq

/-- Awaiting `fetch(...)`: a rejected promise is a thrown exception. -/
def fetch (outcome : FetchOutcome) : Except JsError Response :=
  match outcome with
  | .rejected error => .error error
  | .resolved response => .ok response

/-- Pieces of `cs` between occurrences of `sep`; never the empty list. -/
def splitChars (sep : Char) : List Char → List (List Char)
  | [] => [[]]
  | c :: cs =>
    if c = sep then [] :: splitChars sep cs
    else
      match splitChars sep cs with
      | [] => [[c]]
      | piece :: pieces => (c :: piece) :: pieces

/-- `String.prototype.split` with a one-character separator. -/
def jsSplit (s : String) (sep : Char) : List String :=
  (splitChars sep s.data).map String.mk

/-! ## The registry: a JavaScript `Map` from site to status -/

/-- A `Map<string, boolean>` as its entries in insertion order. -/
abbrev JsMap := List (String × Bool)

namespace JsMap

/-- `map.get(key)`; `none` is `undefined`. -/
def get : JsMap → String → Option Bool
  | [], _ => none
  | (k, v) :: rest, key => if k = key then some v else get rest key

/-- `map.set(key, value)`: overwrite in place, or append a new entry. -/
def set : JsMap → String → Bool → JsMap
  | [], key, value => [(key, value)]
  | (k, v) :: rest, key, value =>
    if k = key then (k, value) :: rest else (k, v) :: set rest key value

/-- `new Map(entries)`: the entries are `set` one after the other. -/
def ofEntries (entries : List (String × Bool)) : JsMap :=
  entries.foldl (fun m e => set m e.1 e.2) []

/-- The keys, in insertion order. -/
def keys (m : JsMap) : List String :=
  m.map Prod.fst

end JsMap

/-! ## Configuration (lines 8-21) -/

/-- `process.env`: a variable is unset (`none`, `undefined`) or holds a string. -/
abbrev ProcessEnv := String → Option String

/-- The two module constants the loop uses. -/
structure Config where
  slackWebhookUrl : String
  sitesToMonitor : List String
deriving DecidableEq

/-- Line 9: `process.env.SITES_TO_MONITOR?.split(",") || []`. An array is always
truthy, so `|| []` only applies to `undefined`. -/
def readSitesToMonitor (env : ProcessEnv) : List String :=
  match env "SITES_TO_MONITOR" with
  | some s => jsSplit s ','
  | none => []

/-- Lines 8-21: read the two required settings and validate them.
`!slackWebhookUrl` holds for `undefined` and for the empty string. -/
def loadConfig (env : ProcessEnv) : Except JsError Config :=
  let slackWebhookUrl := env "SLACK_WEBHOOK_URL"
  let sitesToMonitor := readSitesToMonitor env
  match slackWebhookUrl with
  | none => .error ⟨"SLACK_WEBHOOK_URL environment variable is required"⟩
  | some url =>
    if url = "" then
      .error ⟨"SLACK_WEBHOOK_URL environment variable is required"⟩
    else if sitesToMonitor.length = 0 then
      .error ⟨"SITES_TO_MONITOR environment variable is required"⟩
    else
      .ok { slackWebhookUrl := url, sitesToMonitor := sitesToMonitor }

/-- Line 24: `new Map(sitesToMonitor.map((site) => [site, false]))`. -/
def initSitesStatus (sitesToMonitor : List String) : JsMap :=
  JsMap.ofEntries (sitesToMonitor.map (fun site => (site, false)))

/-! ## World -/

/-- The arguments of the webhook `fetch` call (lines 45-49). -/
structure Request where
  url : String
  method : String
  headers : List (String × String)
  body : String
deriving DecidableEq

/-- One action of the loop. -/
inductive Event where
  | probe (site : String) (currentStatus : Bool)
  | notify (site : String) (isDown : Bool) (request : Request)
  | commit (site : String) (status : Bool)
deriving DecidableEq

/-- One `console.log` (`isError = false`) or `console.error` call with its
arguments as printed. -/
structure ConsoleLine where
  isError : Bool
  args : List String
deriving DecidableEq

/-- Program state together with the record of its effects. -/
structure World where
  sitesStatus : JsMap
  trace : List Event
  console : List ConsoleLine
deriving DecidableEq

namespace World

/-- `console.log(...args)`. -/
def log (w : World) (args : List String) : World :=
  { w with console := w.console ++ [⟨false, args⟩] }

/-- `console.error(...args)`. -/
def logError (w : World) (args : List String) : World :=
  { w with console := w.console ++ [⟨true, args⟩] }

/-- Append an action to the trace. -/
def emit (w : World) (e : Event) : World :=
  { w with trace := w.trace ++ [e] }

end World

/-- Text of a boolean inside a template literal. -/
def showBool (b : Bool) : String :=
  if b then "true" else "false"

/-- Text of `sitesStatus.get(site)` inside a template literal. -/
def showStatus : Option Bool → String
  | none => "undefined"
  | some b => showBool b

/-! ## `checkSite` (lines 27-35) -/

/-- One probe: `true` exactly for a response with status 200; a rejected fetch
is caught, logged and mapped to `false`. -/
def checkSite (url : String) (probe : FetchOutcome) (w : World) :
    Except JsError Bool × World :=
  match fetch probe with
  | .ok response => (.ok (decide (response.status = 200)), w)
  | .error error => (.ok false, w.logError ["Error checking " ++ url ++ ":", error.message])

/-! ## `sendSlackNotification` (lines 38-59) -/

/-- The object literal `message` of line 40. -/
structure SlackMessage where
  text : String
deriving DecidableEq

/-- Line 39. -/
def statusLabel (isDown : Bool) : String :=
  if isDown then "DOWN ⛔" else "BACK UP ✅"

/-- Lines 40-42; `now` is `new Date().toISOString()`. -/
def buildMessage (site : String) (isDown : Bool) (now : String) : SlackMessage :=
  { text := "🚨 Site Status Alert 🚨\nSite: " ++ site ++ "\nStatus: " ++ statusLabel isDown
      ++ "\nTime: " ++ now }

/-- Lowercase hexadecimal digit. -/
def hexDigit (n : Nat) : Char :=
  if n < 10 then Char.ofNat (48 + n) else Char.ofNat (87 + n)

/-- ECMAScript `QuoteJSONString`, one code point. -/
def quoteJSONChar (c : Char) : List Char :=
  let bs := Char.ofNat 92
  if c.toNat = 8 then [bs, 'b']
  else if c.toNat = 9 then [bs, 't']
  else if c.toNat = 10 then [bs, 'n']
  else if c.toNat = 12 then [bs, 'f']
  else if c.toNat = 13 then [bs, 'r']
  else if c.toNat = 34 then [bs, Char.ofNat 34]
  else if c.toNat = 92 then [bs, bs]
  else if c.toNat < 32 then [bs, 'u', '0', '0', hexDigit (c.toNat / 16), hexDigit (c.toNat % 16)]
  else [c]

/-- ECMAScript `QuoteJSONString`. -/
def quoteJSONString (s : String) : String :=
  String.mk (Char.ofNat 34 :: (s.data.flatMap quoteJSONChar ++ [Char.ofNat 34]))

/-- `JSON.stringify(message)` for the one-field object `message`. -/
def jsonStringify (message : SlackMessage) : String :=
  "\x7b" ++ quoteJSONString "text" ++ ":" ++ quoteJSONString message.text ++ "\x7d"

/-- The arguments of the `fetch` call of lines 45-49. -/
def slackRequest (slackWebhookUrl : String) (message : SlackMessage) : Request :=
  { url := slackWebhookUrl
    method := "POST"
    headers := [("Content-Type", "application/json")]
    body := jsonStringify message }

/-- Post one alert to the webhook. Both a non-ok response and a rejected fetch
are only logged. -/
def sendSlackNotification (cfg : Config) (site : String) (isDown : Bool) (now : String)
    (dispatch : FetchOutcome) (w : World) : Except JsError Unit × World :=
  let message := buildMessage site isDown now
  let w := w.emit (.notify site isDown (slackRequest cfg.slackWebhookUrl message))
  match fetch dispatch with
  | .ok response =>
    if !response.ok then
      (.ok (), w.logError ["Failed to send Slack notification: " ++ toString response.status])
    else
      (.ok (), w.log ["Sent Slack notification for " ++ site])
  | .error error => (.ok (), w.logError ["Error sending Slack notification:", error.message])

/-! ## `monitorSites` (lines 62-99) -/

/-- What the outside world supplies to one iteration of the `for` loop. -/
structure StepInput where
  probe : FetchOutcome
  now : String
  dispatch : FetchOutcome
deriving DecidableEq

/-- Lines 82-91: the branch taken when the status has changed. -/
def onChange (cfg : Config) (site : String) (currentStatus : Bool) (inp : StepInput)
    (w : World) : Except JsError Unit × World :=
  match sendSlackNotification cfg site (!currentStatus) inp.now inp.dispatch w with
  | (.error e, w) => (.error e, w)
  | (.ok (), w) =>
    let w := { w.emit (.commit site currentStatus) with
                sitesStatus := w.sitesStatus.set site currentStatus }
    if currentStatus then (.ok (), w.log ["Site " ++ site ++ " is back up"])
    else (.ok (), w.logError ["Site " ++ site ++ " is down"])

/-- Lines 68-91: the body of the `for` loop for one site. The comparison
`currentStatus !== previousStatus` is between a boolean and a boolean or
`undefined`. -/
def loopBody (cfg : Config) (site : String) (inp : StepInput) (w : World) :
    Except JsError Unit × World :=
  let w := w.log ["Checking status for " ++ site ++ "..."]
  match checkSite site inp.probe w with
  | (.error e, w) => (.error e, w)
  | (.ok currentStatus, w) =>
    let w := w.emit (.probe site currentStatus)
    let previousStatus := w.sitesStatus.get site
    let w := w.log ["finished checking status for ", site]
    let w := w.log ["Current status for " ++ site ++ ": " ++ showBool currentStatus]
    let w := w.log ["Previous status for " ++ site ++ ": " ++ showStatus previousStatus]
    let w := w.log [if some currentStatus ≠ previousStatus
      then "Status changed for " ++ site ++ ", sending notification"
      else "Status did not change for " ++ site ++ ", abort sending notification"]
    if some currentStatus ≠ previousStatus then onChange cfg site currentStatus inp w
    else (.ok (), w)

/-- Lines 67-92: the `for` loop over the sites from position `i` on. -/
def forSites (cfg : Config) (inp : Nat → StepInput) :
    Nat → List String → World → Except JsError Unit × World
  | _, [], w => (.ok (), w)
  | i, site :: rest, w =>
    match loopBody cfg site (inp i) w with
    | (.error e, w) => (.error e, w)
    | (.ok (), w) => forSites cfg inp (i + 1) rest w

/-- Lines 66-98: `cycles` more passes of the `while` loop, the next one being
cycle number `c`. -/
def whileLoop (cfg : Config) (env : Nat → Nat → StepInput) :
    Nat → Nat → World → Except JsError Unit × World
  | _, 0, w => (.ok (), w)
  | c, cycles + 1, w =>
    match forSites cfg (env c) 0 cfg.sitesToMonitor w with
    | (.error e, w) => (.error e, w)
    | (.ok (), w) =>
      whileLoop cfg env (c + 1) cycles
        (w.log ["------------------------------------------------------------"])

/-- Lines 62-99, run for `cycles` cycles. -/
def monitorSites (cfg : Config) (env : Nat → Nat → StepInput) (cycles : Nat) (w : World) :
    Except JsError Unit × World :=
  let w := w.log ["Starting site monitoring..."]
  let w := w.log ["Monitoring sites:", String.intercalate ", " cfg.sitesToMonitor]
  whileLoop cfg env 0 cycles w

/-- The world when the module starts executing. -/
def World.start : World :=
  { sitesStatus := [], trace := [], console := [] }

/-- The world after line 24. -/
def World.init (cfg : Config) : World :=
  { World.start with sitesStatus := initSitesStatus cfg.sitesToMonitor }

/-- The whole module: configuration, registry, then the monitor (lines 5-105).
A configuration error is thrown before anything else happens. An exception
escaping `monitorSites` is logged by the `.catch` handler (shown here by its
message) before `process.exit(1)`. -/
def main (penv : ProcessEnv) (env : Nat → Nat → StepInput) (cycles : Nat) :
    Except JsError Unit × World :=
  match loadConfig penv with
  | .error e => (.error e, World.start)
  | .ok cfg =>
    match monitorSites cfg env cycles (World.init cfg) with
    | (.error e, w) => (.error e, w.logError ["Monitoring error:", e.message])
    | (.ok (), w) => (.ok (), w)

/-! ## Reading a trace -/

/-- The status a probe outcome stands for: up exactly for a response whose
status code is 200. -/
def FetchOutcome.up : FetchOutcome → Bool
  | .resolved response => decide (response.status = 200)
  | .rejected _ => false

/-- The values `checkSite` returned for site `t`, oldest first. -/
def probeResults (t : String) (tr : List Event) : List Bool :=
  tr.filterMap fun e =>
    match e with
    | .probe site r => if site = t then some r else none
    | _ => none

/-- The notifications sent, oldest first, as pairs (site, isDown). -/
def notifications (tr : List Event) : List (String × Bool) :=
  tr.filterMap fun e =>
    match e with
    | .notify site isDown _ => some (site, isDown)
    | _ => none

/-- The `isDown` flags of the notifications sent for site `t`, oldest first. -/
def notificationsFor (t : String) (tr : List Event) : List Bool :=
  ((notifications tr).filter fun p => decide (p.1 = t)).map Prod.snd

/-- The events one iteration appends to the trace, given the probe result and
the stored status it is compared with. -/
def stepEvents (cfg : Config) (site : String) (r : Bool) (now : String)
    (previousStatus : Option Bool) : List Event :=
  .probe site r ::
    (if some r ≠ previousStatus then
      [.notify site (!r) (slackRequest cfg.slackWebhookUrl (buildMessage site (!r) now)),
       .commit site r]
    else [])

/-- The registry after one iteration with probe result `r`. -/
def stepStatus (m : JsMap) (site : String) (r : Bool) : JsMap :=
  if some r ≠ m.get site then m.set site r else m

/-! ## Transitions in a sequence of probe results -/

/-- The `isDown` flags announced along a sequence of probe results, the stored
status being `s` at the start: one flag per result that differs from its
predecessor. -/
def transitions : Bool → List Bool → List Bool
  | _, [] => []
  | s, r :: rs => (if r ≠ s then [!r] else []) ++ transitions r rs

/-- The last element of `rs`, or `s` when there is none. -/
def lastFrom : Bool → List Bool → Bool
  | s, [] => s
  | _, r :: rs => lastFrom r rs

/-! ## The invariant linking registry, probes and notifications -/

/-- For every site: the registry holds the latest probe result (`false` before
the first probe), and the notifications sent are the transitions of the probe
results. -/
def Tracked (sites : List String) (w : World) : Prop :=
  ∀ t, (t ∈ sites → w.sitesStatus.get t = some (lastFrom false (probeResults t w.trace))) ∧
    notificationsFor t w.trace = transitions false (probeResults t w.trace)

/-! ## Probe results in terms of the inputs -/

/-- The sites of one pass paired with what the outside world supplies for them,
the first site being at position `i`. -/
def cycleInputs (inp : Nat → StepInput) (i : Nat) (sites : List String) :
    List (String × StepInput) :=
  List.zip sites ((List.range' i sites.length).map inp)

/-- The probe results for site `t` in cycle `c`, in the order of the site list. -/
def probesOf (cfg : Config) (env : Nat → Nat → StepInput) (t : String) (c : Nat) : List Bool :=
  ((cycleInputs (env c) 0 cfg.sitesToMonitor).filter fun p => decide (p.1 = t)).map
    fun p => p.2.probe.up

/-- The probe results for site `t` over cycles `0 .. cycles - 1`. -/
def probeHistory (cfg : Config) (env : Nat → Nat → StepInput) (t : String) (cycles : Nat) :
    List Bool :=
  (List.range cycles).flatMap (probesOf cfg env t)

/-! ## Comparing runs -/

/-- A response with the given status code; `ok` as the fetch standard defines it. -/
def respond (status : Nat) : FetchOutcome :=
  .resolved { status := status, ok := decide (200 ≤ status ∧ status < 300) }

/-- A rejected fetch: the request timed out. -/
def timedOut : FetchOutcome :=
  .rejected ⟨"network timeout"⟩

/-- Two worlds with the same registry and the same trace. -/
def SameState (w w2 : World) : Prop :=
  w.sitesStatus = w2.sitesStatus ∧ w.trace = w2.trace

/-- Two input streams that give the same probe results and clock readings. -/
def SameProbes (inp inp2 : Nat → StepInput) : Prop :=
  ∀ j, (inp j).probe.up = (inp2 j).probe.up ∧ (inp j).now = (inp2 j).now

/-- The inputs `inp` with every webhook post answered by a 200 response. -/
def withDispatchOk (inp : Nat → StepInput) : Nat → StepInput := fun j =>
  { inp j with dispatch := respond 200 }

/-! ## The scenario of the specification, and an environment with an empty site variable -/

/-- Two sites and a webhook. -/
def exampleConfig : Config :=
  { slackWebhookUrl := "https://hooks.test/T000"
    sitesToMonitor := ["https://a.test", "https://b.test"] }

/-- Cycle 0: a answers 200, b answers 500. Cycle 1: both answer 200.
Later cycles: a times out, b answers 200. Every webhook post succeeds. -/
def exampleEnv : Nat → Nat → StepInput
  | 0, 0 => ⟨respond 200, "2024-01-01T00:00:00.000Z", respond 200⟩
  | 0, _ => ⟨respond 500, "2024-01-01T00:00:01.000Z", respond 200⟩
  | 1, 0 => ⟨respond 200, "2024-01-01T00:05:00.000Z", respond 200⟩
  | 1, _ => ⟨respond 200, "2024-01-01T00:05:01.000Z", respond 200⟩
  | _, 0 => ⟨timedOut, "2024-01-01T00:10:10.000Z", respond 200⟩
  | _, _ => ⟨respond 200, "2024-01-01T00:10:11.000Z", respond 200⟩

/-- An environment in which the webhook is set and `SITES_TO_MONITOR` is set to
the empty string. -/
def emptySitesEnv : ProcessEnv := fun name =>
  if name = "SLACK_WEBHOOK_URL" then some "https://hooks.test/T000"
  else if name = "SITES_TO_MONITOR" then some ""
  else none

/-- Every fetch is rejected. -/
def unreachableEnv : Nat → Nat → StepInput := fun _ _ =>
  ⟨.rejected ⟨"Invalid URL"⟩, "2024-01-01T00:00:00.000Z", .rejected ⟨"Invalid URL"⟩⟩

/-! ## Basic facts about one iteration -/

theorem checkSite_fst (url : String) (probe : FetchOutcome) (w : World) :
    (checkSite url probe w).1 = .ok probe.up := by
  cases probe <;> rfl

theorem checkSite_sitesStatus (url : String) (probe : FetchOutcome) (w : World) :
    (checkSite url probe w).2.sitesStatus = w.sitesStatus := by
  cases probe <;> rfl

theorem checkSite_trace (url : String) (probe : FetchOutcome) (w : World) :
    (checkSite url probe w).2.trace = w.trace := by
  cases probe <;> rfl

theorem sendSlackNotification_fst (cfg : Config) (site : String) (isDown : Bool)
    (now : String) (dispatch : FetchOutcome) (w : World) :
    (sendSlackNotification cfg site isDown now dispatch w).1 = .ok () := by
  rcases dispatch with e | ⟨status, ok⟩
  · rfl
  · cases ok <;> rfl

theorem sendSlackNotification_sitesStatus (cfg : Config) (site : String) (isDown : Bool)
    (now : String) (dispatch : FetchOutcome) (w : World) :
    (sendSlackNotification cfg site isDown now dispatch w).2.sitesStatus = w.sitesStatus := by
  rcases dispatch with e | ⟨status, ok⟩
  · rfl
  · cases ok <;> rfl

theorem sendSlackNotification_trace (cfg : Config) (site : String) (isDown : Bool)
    (now : String) (dispatch : FetchOutcome) (w : World) :
    (sendSlackNotification cfg site isDown now dispatch w).2.trace =
      w.trace ++
        [.notify site isDown (slackRequest cfg.slackWebhookUrl (buildMessage site isDown now))] := by
  rcases dispatch with e | ⟨status, ok⟩
  · rfl
  · cases ok <;> rfl

theorem onChange_spec (cfg : Config) (site : String) (r : Bool) (inp : StepInput) (w : World) :
    (onChange cfg site r inp w).1 = .ok () ∧
    (onChange cfg site r inp w).2.sitesStatus = w.sitesStatus.set site r ∧
    (onChange cfg site r inp w).2.trace =
      w.trace ++
        [.notify site (!r) (slackRequest cfg.slackWebhookUrl (buildMessage site (!r) inp.now)),
         .commit site r] := by
  rcases inp with ⟨probe, now, dispatch⟩
  rcases dispatch with e | ⟨status, ok⟩
  · cases r <;> simp [onChange, sendSlackNotification, fetch, World.emit, World.log, World.logError]
  · cases r <;> cases ok <;>
      simp [onChange, sendSlackNotification, fetch, World.emit, World.log, World.logError]

theorem loopBody_spec (cfg : Config) (site : String) (inp : StepInput) (w : World) :
    (loopBody cfg site inp w).1 = .ok () ∧
    (loopBody cfg site inp w).2.sitesStatus = stepStatus w.sitesStatus site inp.probe.up ∧
    (loopBody cfg site inp w).2.trace =
      w.trace ++ stepEvents cfg site inp.probe.up inp.now (w.sitesStatus.get site) := by
  rcases inp with ⟨probe, now, dispatch⟩
  rcases probe with e | response
  · by_cases hch : some false = w.sitesStatus.get site
    · simp [loopBody, checkSite, fetch, World.emit, World.log, World.logError, stepStatus,
        stepEvents, FetchOutcome.up, hch]
    · simp [loopBody, checkSite, fetch, World.emit, World.log, World.logError, stepStatus,
        stepEvents, FetchOutcome.up, hch, onChange_spec]
  · by_cases hch : some (decide (response.status = 200)) = w.sitesStatus.get site
    · simp [loopBody, checkSite, fetch, World.emit, World.log, World.logError, stepStatus,
        stepEvents, FetchOutcome.up, hch]
    · simp [loopBody, checkSite, fetch, World.emit, World.log, World.logError, stepStatus,
        stepEvents, FetchOutcome.up, hch, onChange_spec]

theorem loopBody_fst (cfg : Config) (site : String) (inp : StepInput) (w : World) :
    (loopBody cfg site inp w).1 = .ok () :=
  (loopBody_spec cfg site inp w).1

theorem loopBody_sitesStatus (cfg : Config) (site : String) (inp : StepInput) (w : World) :
    (loopBody cfg site inp w).2.sitesStatus = stepStatus w.sitesStatus site inp.probe.up :=
  (loopBody_spec cfg site inp w).2.1

theorem loopBody_trace (cfg : Config) (site : String) (inp : StepInput) (w : World) :
    (loopBody cfg site inp w).2.trace =
      w.trace ++ stepEvents cfg site inp.probe.up inp.now (w.sitesStatus.get site) :=
  (loopBody_spec cfg site inp w).2.2

/-! ## Registry lemmas -/

theorem JsMap.get_set_self (m : JsMap) (k : String) (v : Bool) :
    (m.set k v).get k = some v := by
  induction m with
  | nil => simp [JsMap.set, JsMap.get]
  | cons e rest ih =>
    rcases e with ⟨k0, v0⟩
    by_cases h : k0 = k
    · simp [JsMap.set, JsMap.get, h]
    · simp [JsMap.set, JsMap.get, h, ih]

theorem JsMap.get_set_of_ne (m : JsMap) (k t : String) (v : Bool) (h : t ≠ k) :
    (m.set k v).get t = m.get t := by
  induction m with
  | nil => simp [JsMap.set, JsMap.get, Ne.symm h]
  | cons e rest ih =>
    rcases e with ⟨k0, v0⟩
    by_cases h0 : k0 = k
    · subst h0
      simp [JsMap.set, JsMap.get, Ne.symm h]
    · by_cases h1 : k0 = t
      · subst h1
        simp [JsMap.set, JsMap.get, h0]
      · simp [JsMap.set, JsMap.get, h0, h1, ih]

theorem JsMap.mem_keys_set (m : JsMap) (k t : String) (v : Bool) :
    t ∈ (m.set k v).keys ↔ t = k ∨ t ∈ m.keys := by
  induction m with
  | nil => simp [JsMap.set, JsMap.keys]
  | cons e rest ih =>
    rcases e with ⟨k0, v0⟩
    by_cases h0 : k0 = k
    · subst h0
      simp [JsMap.set, JsMap.keys]
    · simp only [JsMap.keys] at ih
      simp only [JsMap.set, JsMap.keys, h0, if_false, List.map_cons, List.mem_cons, ih]
      tauto

theorem JsMap.keys_set_of_mem (m : JsMap) (k : String) (v : Bool) (h : k ∈ m.keys) :
    (m.set k v).keys = m.keys := by
  induction m with
  | nil => simp [JsMap.keys] at h
  | cons e rest ih =>
    rcases e with ⟨k0, v0⟩
    by_cases h0 : k0 = k
    · simp [JsMap.set, JsMap.keys, h0]
    · have hk : k ∈ JsMap.keys rest := by
        simp only [JsMap.keys, List.map_cons, List.mem_cons] at h
        rcases h with h | h
        · exact absurd h.symm h0
        · exact h
      have := ih hk
      simp only [JsMap.keys] at this
      simp [JsMap.set, JsMap.keys, h0, this]

theorem JsMap.nodup_keys_set (m : JsMap) (k : String) (v : Bool) (h : m.keys.Nodup) :
    (m.set k v).keys.Nodup := by
  induction m with
  | nil => simp [JsMap.set, JsMap.keys]
  | cons e rest ih =>
    rcases e with ⟨k0, v0⟩
    have hcons : k0 ∉ JsMap.keys rest ∧ (JsMap.keys rest).Nodup := by
      simpa [JsMap.keys] using h
    by_cases h0 : k0 = k
    · subst h0
      simpa [JsMap.set, JsMap.keys] using h
    · have hnot : k0 ∉ JsMap.keys (JsMap.set rest k v) := by
        rw [JsMap.mem_keys_set]
        rintro (h1 | h1)
        · exact h0 h1
        · exact hcons.1 h1
      have hrest := ih hcons.2
      simp only [JsMap.keys] at hnot hrest
      simp only [JsMap.set, h0, if_false, JsMap.keys, List.map_cons, List.nodup_cons]
      exact ⟨hnot, hrest⟩

theorem JsMap.get_isSome_of_mem_keys (m : JsMap) (t : String) (h : t ∈ m.keys) :
    ∃ b, m.get t = some b := by
  induction m with
  | nil => simp [JsMap.keys] at h
  | cons e rest ih =>
    rcases e with ⟨k0, v0⟩
    by_cases h0 : k0 = t
    · exact ⟨v0, by simp [JsMap.get, h0]⟩
    · have ht : t ∈ JsMap.keys rest := by
        simp only [JsMap.keys, List.map_cons, List.mem_cons] at h
        rcases h with h | h
        · exact absurd h.symm h0
        · exact h
      obtain ⟨b, hb⟩ := ih ht
      exact ⟨b, by simp [JsMap.get, h0, hb]⟩

/-- Folding `set` over entries that all carry `false`. -/
theorem foldl_set_false (sites : List String) (m : JsMap) :
    (∀ t, ((sites.map fun site => (site, false)).foldl (fun m e => JsMap.set m e.1 e.2) m).get t =
        if t ∈ sites then some false else m.get t) ∧
    (∀ t, t ∈ ((sites.map fun site => (site, false)).foldl
        (fun m e => JsMap.set m e.1 e.2) m).keys ↔ t ∈ sites ∨ t ∈ m.keys) ∧
    (m.keys.Nodup → ((sites.map fun site => (site, false)).foldl
        (fun m e => JsMap.set m e.1 e.2) m).keys.Nodup) := by
  induction sites generalizing m with
  | nil => simp
  | cons s rest ih =>
    obtain ⟨h1, h2, h3⟩ := ih (m.set s false)
    refine ⟨?_, ?_, ?_⟩
    · intro t
      simp only [List.map_cons, List.foldl_cons, h1 t, List.mem_cons]
      by_cases hr : t ∈ rest
      · simp [hr]
      · by_cases hs : t = s
        · subst hs
          simp [hr, JsMap.get_set_self]
        · simp [hr, hs, JsMap.get_set_of_ne _ _ _ _ hs]
    · intro t
      simp only [List.map_cons, List.foldl_cons, h2 t, List.mem_cons, JsMap.mem_keys_set]
      tauto
    · intro hm
      exact h3 (JsMap.nodup_keys_set m s false hm)

theorem initSitesStatus_get (sites : List String) (t : String) (h : t ∈ sites) :
    (initSitesStatus sites).get t = some false := by
  have := (foldl_set_false sites []).1 t
  simpa [initSitesStatus, JsMap.ofEntries, h] using this

theorem initSitesStatus_mem_keys (sites : List String) (t : String) :
    t ∈ (initSitesStatus sites).keys ↔ t ∈ sites := by
  have := (foldl_set_false sites []).2.1 t
  simpa [initSitesStatus, JsMap.ofEntries, JsMap.keys] using this

theorem initSitesStatus_nodup (sites : List String) :
    (initSitesStatus sites).keys.Nodup := by
  have := (foldl_set_false sites []).2.2 (by simp [JsMap.keys])
  simpa [initSitesStatus, JsMap.ofEntries] using this

theorem stepStatus_get_self (m : JsMap) (site : String) (r : Bool) :
    (stepStatus m site r).get site = some r := by
  unfold stepStatus
  split_ifs with h
  · exact JsMap.get_set_self m site r
  · push_neg at h
    exact h.symm

theorem stepStatus_get_of_ne (m : JsMap) (site t : String) (r : Bool) (h : t ≠ site) :
    (stepStatus m site r).get t = m.get t := by
  unfold stepStatus
  split_ifs
  · exact JsMap.get_set_of_ne m site t r h
  · rfl

theorem stepStatus_keys (m : JsMap) (site : String) (r : Bool) (h : site ∈ m.keys) :
    (stepStatus m site r).keys = m.keys := by
  unfold stepStatus
  split_ifs
  · exact JsMap.keys_set_of_mem m site r h
  · rfl

/-! ## The loops -/

theorem forSites_cons (cfg : Config) (inp : Nat → StepInput) (i : Nat) (site : String)
    (rest : List String) (w : World) :
    forSites cfg inp i (site :: rest) w =
      forSites cfg inp (i + 1) rest (loopBody cfg site (inp i) w).2 := by
  have h := loopBody_fst cfg site (inp i) w
  rcases hb : loopBody cfg site (inp i) w with ⟨res, w1⟩
  rw [hb] at h
  simp only at h
  subst h
  simp [forSites, hb]

theorem forSites_fst (cfg : Config) (inp : Nat → StepInput) (i : Nat) (sites : List String)
    (w : World) : (forSites cfg inp i sites w).1 = .ok () := by
  induction sites generalizing i w with
  | nil => rfl
  | cons site rest ih => rw [forSites_cons]; exact ih _ _

theorem forSites_preserves (P : World → Prop) (cfg : Config) (inp : Nat → StepInput)
    (sites : List String)
    (hstep : ∀ site ∈ sites, ∀ x w, P w → P (loopBody cfg site x w).2)
    (i : Nat) (w : World) (hw : P w) : P (forSites cfg inp i sites w).2 := by
  induction sites generalizing i w with
  | nil => exact hw
  | cons site rest ih =>
    rw [forSites_cons]
    exact ih (fun s hs => hstep s (List.mem_cons_of_mem _ hs)) _ _
      (hstep site (List.mem_cons_self _ _) _ _ hw)

theorem whileLoop_succ (cfg : Config) (env : Nat → Nat → StepInput) (c cycles : Nat)
    (w : World) :
    whileLoop cfg env c (cycles + 1) w =
      whileLoop cfg env (c + 1) cycles
        ((forSites cfg (env c) 0 cfg.sitesToMonitor w).2.log
          ["------------------------------------------------------------"]) := by
  have h := forSites_fst cfg (env c) 0 cfg.sitesToMonitor w
  rcases hb : forSites cfg (env c) 0 cfg.sitesToMonitor w with ⟨res, w1⟩
  rw [hb] at h
  simp only at h
  subst h
  simp [whileLoop, hb]

theorem whileLoop_fst (cfg : Config) (env : Nat → Nat → StepInput) (c cycles : Nat)
    (w : World) : (whileLoop cfg env c cycles w).1 = .ok () := by
  induction cycles generalizing c w with
  | zero => rfl
  | succ n ih => rw [whileLoop_succ]; exact ih _ _

theorem whileLoop_preserves (P : World → Prop) (cfg : Config) (env : Nat → Nat → StepInput)
    (hlog : ∀ w args, P w → P (w.log args))
    (hstep : ∀ site ∈ cfg.sitesToMonitor, ∀ x w, P w → P (loopBody cfg site x w).2)
    (c cycles : Nat) (w : World) (hw : P w) : P (whileLoop cfg env c cycles w).2 := by
  induction cycles generalizing c w with
  | zero => exact hw
  | succ n ih =>
    rw [whileLoop_succ]
    exact ih _ _ (hlog _ _ (forSites_preserves P cfg (env c) cfg.sitesToMonitor hstep 0 w hw))

theorem monitorSites_fst (cfg : Config) (env : Nat → Nat → StepInput) (cycles : Nat)
    (w : World) : (monitorSites cfg env cycles w).1 = .ok () :=
  whileLoop_fst cfg env 0 cycles _

theorem monitorSites_preserves (P : World → Prop) (cfg : Config) (env : Nat → Nat → StepInput)
    (hlog : ∀ w args, P w → P (w.log args))
    (hstep : ∀ site ∈ cfg.sitesToMonitor, ∀ x w, P w → P (loopBody cfg site x w).2)
    (cycles : Nat) (w : World) (hw : P w) : P (monitorSites cfg env cycles w).2 :=
  whileLoop_preserves P cfg env hlog hstep 0 cycles _ (hlog _ _ (hlog _ _ hw))

/-! ## Transitions: lemmas -/

theorem lastFrom_append (s r : Bool) (rs : List Bool) : lastFrom s (rs ++ [r]) = r := by
  induction rs generalizing s with
  | nil => rfl
  | cons a rs ih => exact ih a

theorem lastFrom_eq_getLast (s : Bool) (rs : List Bool) :
    lastFrom s rs = rs.getLast?.getD s := by
  induction rs generalizing s with
  | nil => rfl
  | cons a rs ih =>
    rw [lastFrom, ih a]
    cases rs with
    | nil => rfl
    | cons b rs =>
      cases h : (b :: rs).getLast? with
      | none => simp at h
      | some x => simp [List.getLast?_cons_cons, h]

theorem transitions_append (s r : Bool) (rs : List Bool) :
    transitions s (rs ++ [r]) =
      transitions s rs ++ (if r ≠ lastFrom s rs then [!r] else []) := by
  induction rs generalizing s with
  | nil => simp [transitions, lastFrom]
  | cons a rs ih => simp [transitions, lastFrom, ih a]

theorem transitions_eq_zip (s : Bool) (rs : List Bool) :
    transitions s rs =
      ((List.zip (s :: rs) rs).filter fun p => p.1 != p.2).map fun p => !p.2 := by
  induction rs generalizing s with
  | nil => rfl
  | cons a rs ih =>
    rw [transitions, ih a]
    cases a <;> cases s <;> simp [List.filter_cons]

theorem transitions_alternate (s : Bool) (rs : List Bool) :
    transitions s rs =
      (List.range (transitions s rs).length).map fun k => if k % 2 = 0 then s else !s := by
  induction rs generalizing s with
  | nil => rfl
  | cons a rs ih =>
    by_cases h : a = s
    · subst h
      simpa [transitions] using ih a
    · have ha : a = !s := by cases a <;> cases s <;> simp_all
      subst ha
      have h2 := ih (!s)
      simp only [transitions, ne_eq, Bool.not_eq_self, not_false_eq_true, if_true, Bool.not_not,
        List.singleton_append, List.length_cons, List.range_succ_eq_map, List.map_cons,
        List.map_map]
      refine congrArg₂ _ (by simp) ?_
      rw [h2]
      simp only [List.length_map, List.length_range, List.map_map]
      apply List.map_congr_left
      intro k _
      simp only [Function.comp]
      rcases Nat.mod_two_eq_zero_or_one k with hk | hk
      · have : (k + 1) % 2 = 1 := by omega
        simp [hk, this]
      · have : (k + 1) % 2 = 0 := by omega
        simp [hk, this]

theorem transitions_chain (s : Bool) (rs : List Bool) :
    (transitions s rs).Chain' (fun a b => a ≠ b) ∧ ∀ x ∈ (transitions s rs).head?, x = s := by
  induction rs generalizing s with
  | nil => simp [transitions]
  | cons a rs ih =>
    obtain ⟨hc, hh⟩ := ih a
    by_cases h : a = s
    · subst h
      simpa [transitions] using ih a
    · have ha : (!a) = s := by
        cases a <;> cases s
        · exact absurd rfl h
        · rfl
        · rfl
        · exact absurd rfl h
      simp only [transitions, ne_eq, h, not_false_eq_true, if_true, List.singleton_append]
      refine ⟨List.chain'_cons'.mpr ⟨fun x hx => ?_, hc⟩, by simp [ha]⟩
      rw [hh x hx]
      cases a <;> simp

/-! ## What one iteration adds to the trace -/

theorem probeResults_append (t : String) (tr tr2 : List Event) :
    probeResults t (tr ++ tr2) = probeResults t tr ++ probeResults t tr2 := by
  simp [probeResults, List.filterMap_append]

theorem notifications_append (tr tr2 : List Event) :
    notifications (tr ++ tr2) = notifications tr ++ notifications tr2 := by
  simp [notifications, List.filterMap_append]

theorem notificationsFor_append (t : String) (tr tr2 : List Event) :
    notificationsFor t (tr ++ tr2) = notificationsFor t tr ++ notificationsFor t tr2 := by
  simp [notificationsFor, notifications_append]

theorem probeResults_stepEvents (cfg : Config) (site t : String) (r : Bool) (now : String)
    (prev : Option Bool) :
    probeResults t (stepEvents cfg site r now prev) = if site = t then [r] else [] := by
  unfold stepEvents
  by_cases h : some r ≠ prev
  · rw [if_pos h]
    by_cases h2 : site = t <;> simp [probeResults, h2, List.filterMap_cons]
  · rw [if_neg h]
    by_cases h2 : site = t <;> simp [probeResults, h2, List.filterMap_cons]

theorem notifications_stepEvents (cfg : Config) (site : String) (r : Bool) (now : String)
    (prev : Option Bool) :
    notifications (stepEvents cfg site r now prev) =
      if some r ≠ prev then [(site, !r)] else [] := by
  unfold stepEvents
  by_cases h : some r ≠ prev
  · rw [if_pos h, if_pos h]
    simp [notifications, List.filterMap_cons]
  · rw [if_neg h, if_neg h]
    simp [notifications, List.filterMap_cons]

theorem notificationsFor_stepEvents (cfg : Config) (site t : String) (r : Bool) (now : String)
    (prev : Option Bool) :
    notificationsFor t (stepEvents cfg site r now prev) =
      if site = t ∧ some r ≠ prev then [!r] else [] := by
  unfold notificationsFor
  rw [notifications_stepEvents]
  by_cases h : some r ≠ prev
  · rw [if_pos h]
    by_cases h2 : site = t <;> simp [h2, h]
  · rw [if_neg h]
    simp [h]

/-! ## The invariant holds in every state the monitor reaches -/

theorem tracked_init (cfg : Config) : Tracked cfg.sitesToMonitor (World.init cfg) := by
  intro t
  refine ⟨fun h => ?_, rfl⟩
  simpa [World.init, World.start, probeResults, lastFrom] using
    initSitesStatus_get cfg.sitesToMonitor t h

theorem tracked_log (sites : List String) (w : World) (args : List String)
    (h : Tracked sites w) : Tracked sites (w.log args) := h

theorem tracked_loopBody (cfg : Config) (sites : List String) (site : String)
    (hs : site ∈ sites) (x : StepInput) (w : World) (h : Tracked sites w) :
    Tracked sites (loopBody cfg site x w).2 := by
  intro t
  rw [loopBody_trace, loopBody_sitesStatus, probeResults_append, notificationsFor_append,
    probeResults_stepEvents, notificationsFor_stepEvents]
  obtain ⟨h1, h2⟩ := h t
  by_cases hst : site = t
  · subst hst
    have hget := h1 hs
    refine ⟨fun _ => ?_, ?_⟩
    · simp [stepStatus_get_self, lastFrom_append]
    · simp only [if_true, true_and, transitions_append, h2, hget]
      congr 1
      by_cases hr : x.probe.up = lastFrom false (probeResults site w.trace) <;> simp [hr]
  · refine ⟨fun ht => ?_, ?_⟩
    · simp [hst, stepStatus_get_of_ne _ _ _ _ (Ne.symm hst), h1 ht]
    · simp [hst, h2]

theorem tracked_monitorSites (cfg : Config) (env : Nat → Nat → StepInput) (cycles : Nat) :
    Tracked cfg.sitesToMonitor (monitorSites cfg env cycles (World.init cfg)).2 :=
  monitorSites_preserves (Tracked cfg.sitesToMonitor) cfg env
    (fun w args h => tracked_log _ w args h)
    (fun site hs x w h => tracked_loopBody cfg _ site hs x w h) cycles _ (tracked_init cfg)

/-! ## Probe results in terms of the inputs: lemmas -/

theorem cycleInputs_cons (inp : Nat → StepInput) (i : Nat) (site : String)
    (rest : List String) :
    cycleInputs inp i (site :: rest) = (site, inp i) :: cycleInputs inp (i + 1) rest := by
  simp [cycleInputs, List.range'_succ]

theorem forSites_probeResults (cfg : Config) (inp : Nat → StepInput) (t : String)
    (sites : List String) (i : Nat) (w : World) :
    probeResults t (forSites cfg inp i sites w).2.trace =
      probeResults t w.trace ++
        ((cycleInputs inp i sites).filter fun p => decide (p.1 = t)).map
          fun p => p.2.probe.up := by
  induction sites generalizing i w with
  | nil => simp [forSites, cycleInputs]
  | cons site rest ih =>
    rw [forSites_cons, ih, loopBody_trace, probeResults_append, probeResults_stepEvents,
      cycleInputs_cons]
    by_cases h : site = t <;> simp [h, List.filter_cons]

theorem whileLoop_probeResults (cfg : Config) (env : Nat → Nat → StepInput) (t : String)
    (c cycles : Nat) (w : World) :
    probeResults t (whileLoop cfg env c cycles w).2.trace =
      probeResults t w.trace ++ (List.range' c cycles).flatMap (probesOf cfg env t) := by
  induction cycles generalizing c w with
  | zero => simp [whileLoop]
  | succ n ih =>
    rw [whileLoop_succ, ih]
    simp only [World.log, forSites_probeResults, List.range'_succ, List.flatMap_cons,
      List.append_assoc, probesOf]

theorem monitorSites_probeResults (cfg : Config) (env : Nat → Nat → StepInput) (t : String)
    (cycles : Nat) :
    probeResults t (monitorSites cfg env cycles (World.init cfg)).2.trace =
      probeHistory cfg env t cycles := by
  unfold monitorSites
  rw [whileLoop_probeResults]
  simp [World.log, World.init, World.start, probeResults, probeHistory, List.range_eq_range']

theorem forSites_probed (cfg : Config) (inp : Nat → StepInput) (t : String)
    (sites : List String) (ht : t ∈ sites) (i : Nat) (w : World) :
    probeResults t (forSites cfg inp i sites w).2.trace ≠ [] := by
  rw [forSites_probeResults]
  induction sites generalizing i with
  | nil => simp at ht
  | cons site rest ih =>
    rw [cycleInputs_cons]
    by_cases h : site = t
    · simp [h, List.filter_cons]
    · have ht2 : t ∈ rest := by
        rcases List.mem_cons.mp ht with h1 | h1
        · exact absurd h1.symm h
        · exact h1
      have := ih ht2 (i + 1)
      simpa [h, List.filter_cons] using this

theorem monitorSites_probed (cfg : Config) (env : Nat → Nat → StepInput) (t : String)
    (ht : t ∈ cfg.sitesToMonitor) (cycles : Nat) :
    probeResults t (monitorSites cfg env (cycles + 1) (World.init cfg)).2.trace ≠ [] := by
  unfold monitorSites
  rw [whileLoop_succ]
  refine whileLoop_preserves (fun w => probeResults t w.trace ≠ []) cfg env
    (fun w args h => h) (fun site _ x w h => ?_) _ _ _ ?_
  · show probeResults t (loopBody cfg site x w).2.trace ≠ []
    rw [loopBody_trace, probeResults_append]
    simpa using fun h0 => absurd h0 h
  · exact forSites_probed cfg (env 0) t cfg.sitesToMonitor ht 0 _

/-! ## A pass in which all probes of a site agree -/

theorem forSites_uniform (cfg : Config) (inp : Nat → StepInput) (T : String) (r : Bool)
    (sites : List String) (i : Nat) (w : World) (s : Bool)
    (hget : w.sitesStatus.get T = some s)
    (hr : ∀ j, sites[j]? = some T → (inp (i + j)).probe.up = r) :
    notificationsFor T (forSites cfg inp i sites w).2.trace =
        notificationsFor T w.trace ++ (if T ∈ sites ∧ r ≠ s then [!r] else []) ∧
      (forSites cfg inp i sites w).2.sitesStatus.get T = some (if T ∈ sites then r else s) := by
  induction sites generalizing i w s with
  | nil => simp [forSites, hget]
  | cons site rest ih =>
    rw [forSites_cons]
    have hrest : ∀ j, rest[j]? = some T → (inp (i + 1 + j)).probe.up = r := by
      intro j hj
      have := hr (j + 1) (by simpa using hj)
      rwa [show i + (j + 1) = i + 1 + j by omega] at this
    by_cases hst : site = T
    · subst hst
      have hup : (inp i).probe.up = r := by simpa using hr 0 (by simp)
      have hg1 : (loopBody cfg site (inp i) w).2.sitesStatus.get site = some r := by
        rw [loopBody_sitesStatus, stepStatus_get_self, hup]
      obtain ⟨h1, h2⟩ := ih (i + 1) (loopBody cfg site (inp i) w).2 r hg1 hrest
      rw [h1, h2, loopBody_trace, notificationsFor_append, notificationsFor_stepEvents, hup, hget]
      by_cases hrs : r = s <;> simp [hrs]
    · have hne : T ≠ site := Ne.symm hst
      have hg1 : (loopBody cfg site (inp i) w).2.sitesStatus.get T = some s := by
        rw [loopBody_sitesStatus, stepStatus_get_of_ne _ _ _ _ hne, hget]
      obtain ⟨h1, h2⟩ := ih (i + 1) (loopBody cfg site (inp i) w).2 s hg1 hrest
      rw [h1, h2, loopBody_trace, notificationsFor_append, notificationsFor_stepEvents]
      simp [hst, hne]

/-! ## Registry and trace depend on the inputs only through probe results and clock -/

theorem loopBody_congr (cfg : Config) (site : String) (x x2 : StepInput) (w w2 : World)
    (hup : x.probe.up = x2.probe.up) (hnow : x.now = x2.now) (hw : SameState w w2) :
    SameState (loopBody cfg site x w).2 (loopBody cfg site x2 w2).2 := by
  unfold SameState
  rw [loopBody_sitesStatus, loopBody_sitesStatus, loopBody_trace, loopBody_trace, hup, hnow,
    hw.1, hw.2]
  exact ⟨rfl, rfl⟩

theorem forSites_congr (cfg : Config) (inp inp2 : Nat → StepInput) (h : SameProbes inp inp2)
    (sites : List String) (i : Nat) (w w2 : World) (hw : SameState w w2) :
    SameState (forSites cfg inp i sites w).2 (forSites cfg inp2 i sites w2).2 := by
  induction sites generalizing i w w2 with
  | nil => exact hw
  | cons site rest ih =>
    rw [forSites_cons, forSites_cons]
    exact ih _ _ _ (loopBody_congr cfg site _ _ w w2 (h i).1 (h i).2 hw)

theorem whileLoop_congr (cfg : Config) (env env2 : Nat → Nat → StepInput)
    (h : ∀ c, SameProbes (env c) (env2 c)) (c cycles : Nat) (w w2 : World)
    (hw : SameState w w2) :
    SameState (whileLoop cfg env c cycles w).2 (whileLoop cfg env2 c cycles w2).2 := by
  induction cycles generalizing c w w2 with
  | zero => exact hw
  | succ n ih =>
    rw [whileLoop_succ, whileLoop_succ]
    exact ih _ _ _ (forSites_congr cfg _ _ (h c) _ 0 w w2 hw)

theorem monitorSites_congr (cfg : Config) (env env2 : Nat → Nat → StepInput)
    (h : ∀ c, SameProbes (env c) (env2 c)) (cycles : Nat) (w w2 : World)
    (hw : SameState w w2) :
    SameState (monitorSites cfg env cycles w).2 (monitorSites cfg env2 cycles w2).2 :=
  whileLoop_congr cfg env env2 h 0 cycles _ _ hw

theorem monitorSites_one (cfg : Config) (env : Nat → Nat → StepInput) (w : World) :
    SameState (monitorSites cfg env 1 w).2 (forSites cfg (env 0) 0 cfg.sitesToMonitor w).2 := by
  unfold monitorSites
  rw [whileLoop_succ]
  exact forSites_congr cfg (env 0) (env 0) (fun j => ⟨rfl, rfl⟩) _ 0 _ w ⟨rfl, rfl⟩

/-! ## A pass over a duplicate-free list -/

theorem flatMap_congr_mem {α β : Type} (l : List α) (f g : α → List β)
    (h : ∀ x ∈ l, f x = g x) : l.flatMap f = l.flatMap g := by
  induction l with
  | nil => rfl
  | cons a l ih =>
    simp only [List.flatMap_cons]
    rw [h a (List.mem_cons_self _ _), ih fun x hx => h x (List.mem_cons_of_mem _ hx)]

theorem forSites_nodup_trace (cfg : Config) (a : String → StepInput) (inp : Nat → StepInput)
    (sites : List String) (i : Nat) (w : World) (hnd : sites.Nodup)
    (hinp : ∀ j site, sites[j]? = some site → inp (i + j) = a site) :
    (forSites cfg inp i sites w).2.trace =
      w.trace ++ sites.flatMap fun site =>
        stepEvents cfg site (a site).probe.up (a site).now (w.sitesStatus.get site) := by
  induction sites generalizing i w with
  | nil => simp [forSites]
  | cons site rest ih =>
    have hrest : ∀ j s, rest[j]? = some s → inp (i + 1 + j) = a s := by
      intro j s hj
      have := hinp (j + 1) s (by simpa using hj)
      rwa [show i + (j + 1) = i + 1 + j by omega] at this
    have h0 : inp i = a site := by simpa using hinp 0 site (by simp)
    obtain ⟨hnot, hnd2⟩ := List.nodup_cons.mp hnd
    rw [forSites_cons, ih (i + 1) _ hnd2 hrest, loopBody_trace, h0, List.flatMap_cons,
      List.append_assoc]
    congr 2
    apply flatMap_congr_mem
    intro s hs
    have hne : s ≠ site := fun h => hnot (h ▸ hs)
    rw [loopBody_sitesStatus, stepStatus_get_of_ne _ _ _ _ hne]

theorem notifications_flatMap_stepEvents (cfg : Config) (a : String → StepInput)
    (p : String → Option Bool) (sites : List String) :
    notifications (sites.flatMap fun site =>
        stepEvents cfg site (a site).probe.up (a site).now (p site)) =
      (sites.filter fun site => decide (some (a site).probe.up ≠ p site)).map
        fun site => (site, !(a site).probe.up) := by
  induction sites with
  | nil => rfl
  | cons site rest ih =>
    rw [List.flatMap_cons, notifications_append, ih, notifications_stepEvents]
    by_cases h : some (a site).probe.up ≠ p site
    · rw [if_pos h, List.filter_cons_of_pos (by simpa using h)]
      rfl
    · rw [if_neg h, List.filter_cons_of_neg (by simpa using h)]
      rfl

/-! ## Configuration: when startup succeeds -/

theorem splitChars_ne_nil (sep : Char) (cs : List Char) : splitChars sep cs ≠ [] := by
  induction cs with
  | nil => simp [splitChars]
  | cons c cs ih =>
    unfold splitChars
    split_ifs
    · simp
    · cases h : splitChars sep cs <;> simp

theorem loadConfig_isOk_iff (env : ProcessEnv) :
    (∃ cfg, loadConfig env = .ok cfg) ↔
      (∃ url, env "SLACK_WEBHOOK_URL" = some url ∧ url ≠ "") ∧
        ∃ s, env "SITES_TO_MONITOR" = some s := by
  unfold loadConfig readSitesToMonitor
  cases hu : env "SLACK_WEBHOOK_URL" with
  | none => simp
  | some url =>
    by_cases hurl : url = ""
    · simp [hurl]
    · cases hs : env "SITES_TO_MONITOR" with
      | none => simp [hurl]
      | some s =>
        have : (jsSplit s ',').length ≠ 0 := by
          simp [jsSplit, splitChars_ne_nil]
        simp [hurl, this]

theorem main_of_config_error (penv : ProcessEnv) (env : Nat → Nat → StepInput) (cycles : Nat)
    (e : JsError) (h : loadConfig penv = .error e) :
    main penv env cycles = (.error e, World.start) := by
  simp [main, h]

/-! ## Claims -/

/-- C1: for every site and every number of cycles run from the initial registry,
the probe results recorded for the site are the ones the inputs supply, cycle by
cycle, and the number of notifications sent for the site equals the number of
adjacent pairs that differ in the sequence `Down, r1, ..., rn`. -/
theorem notification_count_eq_status_changes (cfg : Config) (env : Nat → Nat → StepInput)
    (cycles : Nat) (t : String) :
    probeResults t (monitorSites cfg env cycles (World.init cfg)).2.trace =
        probeHistory cfg env t cycles ∧
      (notificationsFor t (monitorSites cfg env cycles (World.init cfg)).2.trace).length =
        (List.zip (false :: probeHistory cfg env t cycles) (probeHistory cfg env t cycles)).countP
          fun p => p.1 != p.2 := by
  refine ⟨monitorSites_probeResults cfg env t cycles, ?_⟩
  rw [(tracked_monitorSites cfg env cycles t).2, monitorSites_probeResults, transitions_eq_zip,
    List.length_map, List.countP_eq_length_filter]

/-- C2: on the first cycle from the initial registry, a configured site whose
probes all return `r` gets no notification and stays Down when `r` is Down, and
gets exactly one notification, with `isDown = false` ("BACK UP"), and is stored
as Up when `r` is Up. -/
theorem first_cycle_notification (cfg : Config) (env : Nat → Nat → StepInput) (T : String)
    (r : Bool) (hT : T ∈ cfg.sitesToMonitor)
    (hr : ∀ i, cfg.sitesToMonitor[i]? = some T → (env 0 i).probe.up = r) :
    notificationsFor T (monitorSites cfg env 1 (World.init cfg)).2.trace =
        (if r then [false] else []) ∧
      (monitorSites cfg env 1 (World.init cfg)).2.sitesStatus.get T = some r := by
  obtain ⟨hs, ht⟩ := monitorSites_one cfg env (World.init cfg)
  have hget : (World.init cfg).sitesStatus.get T = some false :=
    initSitesStatus_get cfg.sitesToMonitor T hT
  obtain ⟨h1, h2⟩ := forSites_uniform cfg (env 0) T r cfg.sitesToMonitor 0 (World.init cfg)
    false hget (fun j hj => by simpa using hr j hj)
  rw [hs, ht, h1, h2]
  cases r <;> simp [hT, World.init, World.start, notificationsFor, notifications]

/-- Witness for C2: site a of the scenario answers 200 on the first cycle. -/
theorem first_cycle_notification_witness :
    "https://a.test" ∈ exampleConfig.sitesToMonitor ∧
      (∀ i, exampleConfig.sitesToMonitor[i]? = some "https://a.test" →
        (exampleEnv 0 i).probe.up = true) ∧
      notificationsFor "https://a.test"
        (monitorSites exampleConfig exampleEnv 1 (World.init exampleConfig)).2.trace = [false] ∧
      (monitorSites exampleConfig exampleEnv 1 (World.init exampleConfig)).2.sitesStatus.get
        "https://a.test" = some true :=
  have hT : "https://a.test" ∈ exampleConfig.sitesToMonitor := by decide
  have hr : ∀ i, exampleConfig.sitesToMonitor[i]? = some "https://a.test" →
      (exampleEnv 0 i).probe.up = true := fun i h =>
    match i, h with
    | 0, _ => rfl
    | 1, h => absurd h (by decide)
    | _ + 2, h => absurd h (by simp [exampleConfig])
  ⟨hT, hr, first_cycle_notification exampleConfig exampleEnv "https://a.test" true hT hr⟩

/-- C3: `sendSlackNotification` returns normally whatever the outcome of the
webhook post; an iteration that detects a change returns normally and stores
the new probe result whatever that outcome; and a pass over any list of sites
ends with the same result, registry and trace as the pass in which every
webhook post succeeds. -/
theorem dispatch_failure_is_absorbed (cfg : Config) (site : String) (isDown : Bool)
    (now : String) (dispatch : FetchOutcome) (x : StepInput) (w : World)
    (inp : Nat → StepInput) (i : Nat) (sites : List String)
    (hch : some x.probe.up ≠ w.sitesStatus.get site) :
    (sendSlackNotification cfg site isDown now dispatch w).1 = .ok () ∧
      ((loopBody cfg site x w).1 = .ok () ∧
        (loopBody cfg site x w).2.sitesStatus = w.sitesStatus.set site x.probe.up ∧
        (loopBody cfg site x w).2.sitesStatus.get site = some x.probe.up) ∧
      ((forSites cfg inp i sites w).1 = (forSites cfg (withDispatchOk inp) i sites w).1 ∧
        (forSites cfg inp i sites w).2.sitesStatus =
          (forSites cfg (withDispatchOk inp) i sites w).2.sitesStatus ∧
        (forSites cfg inp i sites w).2.trace =
          (forSites cfg (withDispatchOk inp) i sites w).2.trace) := by
  refine ⟨sendSlackNotification_fst cfg site isDown now dispatch w,
    ⟨loopBody_fst cfg site x w, ?_, ?_⟩, ?_, ?_⟩
  · rw [loopBody_sitesStatus, stepStatus, if_pos hch]
  · rw [loopBody_sitesStatus, stepStatus_get_self]
  · rw [forSites_fst, forSites_fst]
  · exact forSites_congr cfg inp (withDispatchOk inp) (fun j => ⟨rfl, rfl⟩) sites i w w
      ⟨rfl, rfl⟩

/-- Witness for C3: in the scenario, site a goes up while the webhook is
unreachable; the registry still records it. -/
theorem dispatch_failure_is_absorbed_witness :
    some (respond 200).up ≠ (World.init exampleConfig).sitesStatus.get "https://a.test" ∧
      (loopBody exampleConfig "https://a.test"
        ⟨respond 200, "2024-01-01T00:00:00.000Z", timedOut⟩
        (World.init exampleConfig)).2.sitesStatus =
      [("https://a.test", true), ("https://b.test", false)] :=
  have hch : some (respond 200).up ≠
      (World.init exampleConfig).sitesStatus.get "https://a.test" := by decide
  ⟨hch,
   ((dispatch_failure_is_absorbed exampleConfig "https://a.test" false
      "2024-01-01T00:00:00.000Z" timedOut
      ⟨respond 200, "2024-01-01T00:00:00.000Z", timedOut⟩ (World.init exampleConfig)
      (exampleEnv 0) 0 exampleConfig.sitesToMonitor hch).2.1.2.1).trans (by decide)⟩

/-- C4: `checkSite` always returns normally, with `true` exactly when the fetch
resolved with status 200; it returns `false` for any other status and for a
rejected fetch; an iteration whose probe is rejected ends with the same result,
registry and trace as one whose probe resolves with a status other than 200;
and two runs of the monitor whose inputs give the same probe results and clock
readings end with the same registry and trace. -/
theorem checkSite_up_iff_status_200 (url : String) (probe : FetchOutcome) (w : World)
    (cfg : Config) (site : String) (e : JsError) (response : Response) (now : String)
    (dispatch : FetchOutcome) (env env2 : Nat → Nat → StepInput) (cycles : Nat)
    (hnot : response.status ≠ 200)
    (henv : ∀ c j, (env c j).probe.up = (env2 c j).probe.up ∧ (env c j).now = (env2 c j).now) :
    (∃ b, (checkSite url probe w).1 = .ok b ∧
        (b = true ↔ ∃ r, probe = .resolved r ∧ r.status = 200)) ∧
      (checkSite url (.resolved response) w).1 = .ok false ∧
      (checkSite url (.rejected e) w).1 = .ok false ∧
      ((loopBody cfg site ⟨.rejected e, now, dispatch⟩ w).1 =
          (loopBody cfg site ⟨.resolved response, now, dispatch⟩ w).1 ∧
        (loopBody cfg site ⟨.rejected e, now, dispatch⟩ w).2.sitesStatus =
          (loopBody cfg site ⟨.resolved response, now, dispatch⟩ w).2.sitesStatus ∧
        (loopBody cfg site ⟨.rejected e, now, dispatch⟩ w).2.trace =
          (loopBody cfg site ⟨.resolved response, now, dispatch⟩ w).2.trace) ∧
      ((monitorSites cfg env cycles (World.init cfg)).2.sitesStatus =
          (monitorSites cfg env2 cycles (World.init cfg)).2.sitesStatus ∧
        (monitorSites cfg env cycles (World.init cfg)).2.trace =
          (monitorSites cfg env2 cycles (World.init cfg)).2.trace) := by
  refine ⟨⟨probe.up, checkSite_fst url probe w, ?_⟩, ?_, rfl, ⟨?_, ?_⟩, ?_⟩
  · rcases probe with e0 | r0
    · simp [FetchOutcome.up]
    · simp [FetchOutcome.up]
  · simp [checkSite, fetch, hnot]
  · rw [loopBody_fst, loopBody_fst]
  · exact loopBody_congr cfg site _ _ w w (by simp [FetchOutcome.up, hnot]) rfl ⟨rfl, rfl⟩
  · exact monitorSites_congr cfg env env2 (fun c j => henv c j) cycles _ _ ⟨rfl, rfl⟩

/-- Witness for C4: a 301 response is a down result. -/
theorem checkSite_up_iff_status_200_witness :
    (301 : Nat) ≠ 200 ∧
      (checkSite "https://a.test" (.resolved ⟨301, false⟩) (World.init exampleConfig)).1 =
        .ok false :=
  ⟨by decide,
   (checkSite_up_iff_status_200 "https://a.test" timedOut (World.init exampleConfig)
    exampleConfig "https://a.test" ⟨"network timeout"⟩ ⟨301, false⟩
    "2024-01-01T00:00:00.000Z" (respond 200) exampleEnv exampleEnv 3 (by decide)
    (fun _ _ => ⟨rfl, rfl⟩)).2.1⟩

/-- C5, at the failing input: with `SITES_TO_MONITOR` set to the empty string
the configuration is accepted with the one site `""`, the monitor is entered
and the empty URL is probed. -/
theorem empty_sites_variable_is_accepted :
    loadConfig emptySitesEnv = .ok ⟨"https://hooks.test/T000", [""]⟩ ∧
      (main emptySitesEnv unreachableEnv 1).1 = .ok () ∧
      (main emptySitesEnv unreachableEnv 1).2.trace = [.probe "" false] :=
  ⟨rfl, rfl, by decide⟩

/-- C6 as stated fails: the text posted for a site that went down is not the
plain template. -/
theorem plain_alert_text_refuted :
    (sendSlackNotification exampleConfig "https://a.test" true "2024-01-01T00:00:00.000Z"
        (respond 200) World.start).2.trace ≠
      [.notify "https://a.test" true
        (slackRequest exampleConfig.slackWebhookUrl
          ⟨"Site Status Alert\nSite: " ++ "https://a.test" ++ "\nStatus: " ++ "DOWN"
            ++ "\nTime: " ++ "2024-01-01T00:00:00.000Z"⟩)] := by
  decide

/-- C6, amended: `sendSlackNotification` issues exactly one request, a POST to
the webhook with the JSON content type, whose body is the JSON text of an
object with the single field `text`, holding the template with the emoji
decorations of the source and the label "DOWN ⛔" or "BACK UP ✅". -/
theorem alert_payload (cfg : Config) (site : String) (isDown : Bool) (now : String)
    (dispatch : FetchOutcome) (w : World) :
    (sendSlackNotification cfg site isDown now dispatch w).2.trace =
      w.trace ++
        [.notify site isDown
          { url := cfg.slackWebhookUrl
            method := "POST"
            headers := [("Content-Type", "application/json")]
            body := jsonStringify
              ⟨"🚨 Site Status Alert 🚨\nSite: " ++ site ++ "\nStatus: "
                ++ (if isDown then "DOWN ⛔" else "BACK UP ✅") ++ "\nTime: " ++ now⟩ }] := by
  rw [sendSlackNotification_trace]
  rfl

/-- C7: the keys of the initial registry are the configured sites, each once;
after any number of cycles the registry has the same keys, and an iteration for
a site that is a key leaves the keys as they are. -/
theorem registry_keys_fixed (cfg : Config) (env : Nat → Nat → StepInput) (cycles : Nat) :
    (World.init cfg).sitesStatus.keys.Nodup ∧
      (∀ t, t ∈ (World.init cfg).sitesStatus.keys ↔ t ∈ cfg.sitesToMonitor) ∧
      (monitorSites cfg env cycles (World.init cfg)).2.sitesStatus.keys =
        (World.init cfg).sitesStatus.keys ∧
      (∀ (site : String) (x : StepInput) (w : World), site ∈ w.sitesStatus.keys →
        (loopBody cfg site x w).2.sitesStatus.keys = w.sitesStatus.keys) := by
  refine ⟨initSitesStatus_nodup _, initSitesStatus_mem_keys _, ?_, ?_⟩
  · refine monitorSites_preserves
      (fun w => w.sitesStatus.keys = (World.init cfg).sitesStatus.keys) cfg env
      (fun w args h => h) (fun site hs x w h => ?_) cycles _ rfl
    show (loopBody cfg site x w).2.sitesStatus.keys = (World.init cfg).sitesStatus.keys
    rw [loopBody_sitesStatus, stepStatus_keys, h]
    rw [h]
    exact (initSitesStatus_mem_keys _ _).mpr hs
  · intro site x w h
    rw [loopBody_sitesStatus, stepStatus_keys _ _ _ h]

/-- Witness for C7 on the two-site scenario. -/
theorem registry_keys_fixed_witness :
    (monitorSites exampleConfig exampleEnv 3 (World.init exampleConfig)).2.sitesStatus.keys =
        ["https://a.test", "https://b.test"] ∧
      (loopBody exampleConfig "https://b.test" (exampleEnv 0 1)
        (World.init exampleConfig)).2.sitesStatus.keys = ["https://a.test", "https://b.test"] :=
  ⟨(registry_keys_fixed exampleConfig exampleEnv 3).2.2.1.trans (by decide),
   ((registry_keys_fixed exampleConfig exampleEnv 3).2.2.2 "https://b.test" (exampleEnv 0 1)
      (World.init exampleConfig) (by decide)).trans (by decide)⟩

/-- C8: an iteration for `site` with probe result `r` leaves `site` stored as `r`
and every other entry as it was; after one or more complete cycles the registry
maps each configured site to its latest probe result; in the two-site scenario
the registry is (a: Up, b: Down), then (a: Up, b: Up), then (a: Down, b: Up). -/
theorem registry_holds_latest_probe (cfg : Config) (env : Nat → Nat → StepInput)
    (cycles : Nat) (t : String) (ht : t ∈ cfg.sitesToMonitor) (site : String) (x : StepInput)
    (w : World) :
    ((loopBody cfg site x w).2.sitesStatus.get site = some x.probe.up ∧
        ∀ u, u ≠ site → (loopBody cfg site x w).2.sitesStatus.get u = w.sitesStatus.get u) ∧
      (monitorSites cfg env (cycles + 1) (World.init cfg)).2.sitesStatus.get t =
        (probeResults t (monitorSites cfg env (cycles + 1) (World.init cfg)).2.trace).getLast? ∧
      ((monitorSites exampleConfig exampleEnv 1 (World.init exampleConfig)).2.sitesStatus =
          [("https://a.test", true), ("https://b.test", false)] ∧
        (monitorSites exampleConfig exampleEnv 2 (World.init exampleConfig)).2.sitesStatus =
          [("https://a.test", true), ("https://b.test", true)] ∧
        (monitorSites exampleConfig exampleEnv 3 (World.init exampleConfig)).2.sitesStatus =
          [("https://a.test", false), ("https://b.test", true)]) := by
  refine ⟨⟨?_, fun u hu => ?_⟩, ?_, by decide, by decide, by decide⟩
  · rw [loopBody_sitesStatus, stepStatus_get_self]
  · rw [loopBody_sitesStatus, stepStatus_get_of_ne _ _ _ _ hu]
  · rw [(tracked_monitorSites cfg env (cycles + 1) t).1 ht, lastFrom_eq_getLast]
    have hne := monitorSites_probed cfg env t ht cycles
    cases h : (probeResults t
      (monitorSites cfg env (cycles + 1) (World.init cfg)).2.trace).getLast? with
    | none => exact absurd (List.getLast?_eq_none_iff.mp h) hne
    | some b => rfl

/-- Witness for C8: site b after the three cycles of the scenario. -/
theorem registry_holds_latest_probe_witness :
    "https://b.test" ∈ exampleConfig.sitesToMonitor ∧
      (monitorSites exampleConfig exampleEnv 3 (World.init exampleConfig)).2.sitesStatus.get
        "https://b.test" = some true :=
  ⟨by decide,
   ((registry_holds_latest_probe exampleConfig exampleEnv 2 "https://b.test" (by decide)
      "https://a.test" (exampleEnv 0 0) (World.init exampleConfig)).2.1).trans (by decide)⟩

/-- C9: for a duplicate-free site list, any registry at the start of the cycle
and any assignment `a` of inputs to sites, one pass appends to the trace, site
by site in configured order, the probe followed (when the result differs from
the status stored at the start of the cycle) by the notification and the
commit; so the notifications of the pass are the configured sites, in order,
whose result differs from the stored status, each with `isDown = !result`. -/
theorem cycle_notifications_in_order (cfg : Config) (a : String → StepInput)
    (inp : Nat → StepInput) (w : World) (hnd : cfg.sitesToMonitor.Nodup)
    (hinp : ∀ i site, cfg.sitesToMonitor[i]? = some site → inp i = a site) :
    (forSites cfg inp 0 cfg.sitesToMonitor w).2.trace =
        w.trace ++ cfg.sitesToMonitor.flatMap (fun site =>
          stepEvents cfg site (a site).probe.up (a site).now (w.sitesStatus.get site)) ∧
      notifications (forSites cfg inp 0 cfg.sitesToMonitor w).2.trace =
        notifications w.trace ++
          (cfg.sitesToMonitor.filter fun site =>
            decide (some (a site).probe.up ≠ w.sitesStatus.get site)).map
            fun site => (site, !(a site).probe.up) := by
  have h := forSites_nodup_trace cfg a inp cfg.sitesToMonitor 0 w hnd
    (fun j site hj => by simpa using hinp j site hj)
  refine ⟨h, ?_⟩
  rw [h, notifications_append, notifications_flatMap_stepEvents]

/-- Witness for C9: the second cycle of the scenario, started from the registry
(a: Up, b: Down), notifies for b only. -/
theorem cycle_notifications_in_order_witness :
    exampleConfig.sitesToMonitor.Nodup ∧
      notifications (forSites exampleConfig (exampleEnv 1) 0 exampleConfig.sitesToMonitor
        { sitesStatus := [("https://a.test", true), ("https://b.test", false)],
          trace := [], console := [] }).2.trace = [("https://b.test", false)] :=
  have hnd : exampleConfig.sitesToMonitor.Nodup := by decide
  ⟨hnd,
   ((cycle_notifications_in_order exampleConfig
      (fun site => if site = "https://a.test" then exampleEnv 1 0 else exampleEnv 1 1)
      (exampleEnv 1)
      { sitesStatus := [("https://a.test", true), ("https://b.test", false)],
        trace := [], console := [] }
      hnd
      (fun i site h =>
        match i, h with
        | 0, h => by
          have hs : site = "https://a.test" := by simpa [exampleConfig] using h.symm
          subst hs
          rfl
        | 1, h => by
          have hs : site = "https://b.test" := by simpa [exampleConfig] using h.symm
          subst hs
          rfl
        | _ + 2, h => absurd h (by simp [exampleConfig]))).2).trans (by decide)⟩

/-- C10: the notifications sent for a site alternate, starting with "BACK UP":
the notification at position `j` (counting from 0, so the `j + 1`-th one) has
`isDown = true` exactly when `j + 1` is even; two consecutive ones never carry
the same flag and the first one is never "DOWN". -/
theorem notifications_alternate (cfg : Config) (env : Nat → Nat → StepInput)
    (cycles : Nat) (t : String) :
    notificationsFor t (monitorSites cfg env cycles (World.init cfg)).2.trace =
        (List.range
          (notificationsFor t (monitorSites cfg env cycles (World.init cfg)).2.trace).length).map
          (fun j => decide ((j + 1) % 2 = 0)) ∧
      (notificationsFor t (monitorSites cfg env cycles (World.init cfg)).2.trace).Chain'
        (fun a b => a ≠ b) ∧
      (notificationsFor t (monitorSites cfg env cycles (World.init cfg)).2.trace).head? ≠
        some true := by
  rw [(tracked_monitorSites cfg env cycles t).2]
  refine ⟨?_, (transitions_chain false _).1, fun h => ?_⟩
  · conv_lhs => rw [transitions_alternate]
    apply List.map_congr_left
    intro j _
    rcases Nat.mod_two_eq_zero_or_one j with hj | hj
    · have : (j + 1) % 2 = 1 := by omega
      simp [hj, this]
    · have : (j + 1) % 2 = 0 := by omega
      simp [hj, this]
  · have := (transitions_chain false _).2 true (Option.mem_def.mpr h)
    exact Bool.noConfusion this

end SitesMonitor
